import Mathlib

/-!
Verification of the viseron storage component
(`viseron/components/storage/__init__.py`): tier-chain validation,
database schema bootstrap/migration, session handling, and per-camera
mover (TierHandler) dispatch.

The Python source is embedded shallowly: configuration dictionaries become
structures, `voluptuous.Invalid` errors become an explicit error type,
fallible external calls (SQLAlchemy / alembic) become outcomes recorded in
an environment value, and stateful methods become explicit state-passing
functions returning `Except`.
-/

namespace Viseron

/-! ## Configuration data model -/

/-- `TEMP_DIR` from `viseron/const.py`; the in-repo documentation
(`const.py` `DESC_PATH`) states the reserved paths are `/tmp` and
`/tmp/viseron`. -/
def TEMP_DIR : String := "/tmp/viseron"

/-- `CONFIG_RECORDINGS` from `const.py`. -/
def CONFIG_RECORDINGS : String := "recordings"

/-- `CONFIG_SNAPSHOTS` from `const.py`. -/
def CONFIG_SNAPSHOTS : String := "snapshots"

/-- The `RuntimeError` message raised by `Storage.get_session` and
`Storage._create_new_db` when the connection is not yet established. -/
def dbNotEstablishedMsg : String := "The database connection has not been established"

/-- A `max_age` configuration value: a dictionary with optional
`days` / `hours` / `minutes` entries (`CONFIG_DAYS`, `CONFIG_HOURS`,
`CONFIG_MINUTES` in `const.py`), each defaulting to unset. -/
structure MaxAge where
  days : Option Nat := none
  hours : Option Nat := none
  minutes : Option Nat := none
deriving DecidableEq, Repr

/-- Modelled from the spec: `calculate_age`
(`viseron/components/storage/util.py`, not included in the sources)
converts a `max_age` dictionary into a duration; the spec describes
`max_age` as a `{days, hours, minutes}` duration threshold where an unset
value is the zero / "retain forever" sentinel.  We return the value of
`timedelta(days, hours, minutes).total_seconds()` as a natural number. -/
def calculate_age (a : MaxAge) : Nat :=
  a.days.getD 0 * 86400 + a.hours.getD 0 * 3600 + a.minutes.getD 0 * 60

/-- A `max_age` value of some number of days. -/
def ageDays (n : Nat) : MaxAge := { days := some n }

/-- The fully-unset (zero / unlimited) `max_age` value. -/
def ageZero : MaxAge := {}

/-- One tier dictionary, restricted to the keys that the code under
verification reads: `CONFIG_PATH` and `CONFIG_MAX_AGE`.  The remaining
configuration keys (`poll`, `move_on_shutdown`, `min_size`, `max_size`,
`min_age`) are never read by `validate_tiers` nor by
`Storage._camera_registered`. -/
structure Tier where
  path : String
  max_age : MaxAge := {}
deriving DecidableEq, Repr

/-- The storage component configuration slice used by the code under
verification: `config[CONFIG_RECORDINGS][CONFIG_TIERS]`,
`config[CONFIG_SNAPSHOTS][CONFIG_TIERS]`, and the optional snapshot
subcategory overrides `config[CONFIG_SNAPSHOTS][CONFIG_FACE_RECOGNITION]`
and `config[CONFIG_SNAPSHOTS][CONFIG_OBJECT_DETECTION]` documented in
`const.py` (`DESC_FACE_RECOGNITION`, `DESC_OBJECT_DETECTION`). -/
structure StorageConfig where
  recordings_tiers : List Tier
  snapshots_tiers : List Tier
  face_recognition_tiers : Option (List Tier) := none
  object_detection_tiers : Option (List Tier) := none
deriving DecidableEq, Repr

/-- The three `vol.Invalid` errors `validate_tiers` can raise,
distinguished by their messages:
`"Tier {path} is a reserved path and cannot be used"`,
`"Tier {path} is defined multiple times"`,
`"Tier {path} max_age must be greater than previous tier max_age"`. -/
inductive TierError where
  | reservedPath (path : String)
  | duplicatePath (path : String)
  | nonMonotonicAge (path : String)
deriving DecidableEq, Repr

/-! ## `validate_tiers` -/

/-- The loop body of `validate_tiers` over one list of tiers, carrying the
`previous_tier` and `paths` loop variables.  Mirrors the source: each
iteration first checks `tier[CONFIG_PATH] in ["/tmp", TEMP_DIR]`, then
`tier[CONFIG_PATH] in paths`, appends the path, and for a non-first tier
raises when `tier_max_age > 0 and tier_max_age <= previous_tier_max_age`. -/
def validateChain : List Tier → Option Tier → List String → Except TierError Unit
  | [], _, _ => .ok ()
  | tier :: rest, previous_tier, paths =>
    if tier.path ∈ ["/tmp", TEMP_DIR] then
      .error (.reservedPath tier.path)
    else if tier.path ∈ paths then
      .error (.duplicatePath tier.path)
    else
      match previous_tier with
      | none => validateChain rest (some tier) (paths ++ [tier.path])
      | some prev =>
        if calculate_age tier.max_age > 0 ∧
            calculate_age tier.max_age ≤ calculate_age prev.max_age then
          .error (.nonMonotonicAge tier.path)
        else
          validateChain rest (some tier) (paths ++ [tier.path])

/-- `validate_tiers` (`storage/__init__.py` lines 46-85).  The source
iterates only over `component_config[CONFIG_RECORDINGS][CONFIG_TIERS]`;
on success the configuration is returned unchanged. -/
def validate_tiers (config : StorageConfig) : Except TierError StorageConfig :=
  match validateChain config.recordings_tiers none [] with
  | .ok _ => .ok config
  | .error e => .error e

/-! ## Declarative chain invariants (the spec§3 TierChain invariants) -/

/-- A path is reserved when it is one of the temp locations. -/
def isReservedPath (p : String) : Prop := p ∈ ["/tmp", TEMP_DIR]

instance (p : String) : Decidable (isReservedPath p) :=
  inferInstanceAs (Decidable (p ∈ ["/tmp", TEMP_DIR]))

/-- The adjacent-pair age condition the source enforces: the successor
tier passes when its age is the zero sentinel, or strictly exceeds the
predecessor's age. -/
def ageOk (prev tier : Tier) : Prop :=
  calculate_age tier.max_age = 0 ∨
    calculate_age prev.max_age < calculate_age tier.max_age

instance (prev tier : Tier) : Decidable (ageOk prev tier) :=
  inferInstanceAs (Decidable (_ = 0 ∨ _ < _))

/-- The monotonic-age condition starting from an optional previous tier. -/
def chainFrom : Option Tier → List Tier → Prop
  | none, ts => List.Chain' ageOk ts
  | some prev, ts => List.Chain ageOk prev ts

/-- Boolean evaluator for `chainFrom`, used to give it a
kernel-reducible decidability instance. -/
def chainFromB : Option Tier → List Tier → Bool
  | _, [] => true
  | none, t :: rest => chainFromB (some t) rest
  | some prev, t :: rest => decide (ageOk prev t) && chainFromB (some t) rest

theorem chainFromB_iff :
    ∀ (prev : Option Tier) (ts : List Tier),
      chainFromB prev ts = true ↔ chainFrom prev ts := by
  intro prev ts
  induction ts generalizing prev with
  | nil =>
    cases prev <;> simp [chainFromB, chainFrom, List.Chain']
  | cons t rest ih =>
    cases prev with
    | none =>
      simpa [chainFromB, chainFrom, List.Chain'] using ih (some t)
    | some p =>
      have h := ih (some t)
      simp only [chainFrom] at h
      simp [chainFromB, chainFrom, List.chain_cons, h]

instance (prev : Option Tier) (ts : List Tier) : Decidable (chainFrom prev ts) :=
  decidable_of_iff _ (chainFromB_iff prev ts)

/-- All three TierChain invariants for one list of tiers. -/
def ChainInvariants (ts : List Tier) : Prop :=
  (∀ t ∈ ts, ¬ isReservedPath t.path) ∧
    (ts.map Tier.path).Nodup ∧ chainFrom none ts

instance (ts : List Tier) : Decidable (ChainInvariants ts) :=
  inferInstanceAs
    (Decidable ((∀ t ∈ ts, ¬ isReservedPath t.path) ∧
      (ts.map Tier.path).Nodup ∧ chainFrom none ts))

/-- The first path that repeats an earlier one (earlier in the list or in
the accumulated `seen` prefix), in chain order; mirrors the way
`validate_tiers` accumulates its `paths` variable. -/
def firstDup : List String → List String → Option String
  | [], _ => none
  | p :: rest, seen => if p ∈ seen then some p else firstDup rest (seen ++ [p])

/-- The first tier of the list whose path is reserved, if any. -/
def firstReserved (ts : List Tier) : Option Tier :=
  ts.find? fun t => decide (isReservedPath t.path)

/-- Whether a validation outcome is a `NonMonotonicAgeError`. -/
def isNonMonotonicAgeError : Except TierError StorageConfig → Bool
  | .error (.nonMonotonicAge _) => true
  | _ => false

/-! ## Database schema manager (`Storage.create_database` and friends) -/

/-- Outcomes of the external SQLAlchemy / alembic calls that
`Storage.create_database` performs, as a passive environment:
`engine` is the identity of the engine returned by
`create_engine(DATABASE_URL)`; each `*_error` field is `some msg` when the
corresponding call raises and `none` when it succeeds;
`current_rev` is what `MigrationContext.get_current_revision()` reports
and `head_rev` what `ScriptDirectory.get_current_head()` reports. -/
structure DbEnv where
  engine : Nat
  connect_error : Option String := none
  current_rev : Option String := none
  head_rev : String
  create_all_error : Option String := none
  stamp_error : Option String := none
  upgrade_error : Option String := none
deriving DecidableEq, Repr

/-- The observable schema actions taken during `create_database`. -/
inductive DbAction where
  | create_all
  | stamp
  | upgrade
  | install_session_factory
deriving DecidableEq, Repr

/-- The mutable `Storage` attributes relevant to the claims:
`self.engine` and `self._get_session`.  The session factory records the
engine that `sessionmaker(bind=self.engine, future=True)` was bound to. -/
structure StorageState where
  engine : Option Nat := none
  session_factory : Option Nat := none
deriving DecidableEq, Repr

/-- `Storage._create_new_db` (lines 175-185): raises `RuntimeError` when
`self.engine is None`; otherwise runs `Base.metadata.create_all` and
`command.stamp(…, "head")` inside a `try` whose broad `except` only logs
the error.  The result, for the non-raising path, is the list of schema
actions that completed together with the error that was caught and
logged, if any. -/
def create_new_db (engine : Option Nat) (env : DbEnv) :
    Except String (List DbAction × Option String) :=
  match engine with
  | none => .error dbNotEstablishedMsg
  | some _ =>
    match env.create_all_error with
    | some e => .ok ([], some e)
    | none =>
      match env.stamp_error with
      | some e => .ok ([DbAction.create_all], some e)
      | none => .ok ([DbAction.create_all, DbAction.stamp], none)

/-- The result of a `create_database` call that did not raise. -/
structure CreateDbResult where
  state : StorageState
  actions : List DbAction
  logged_error : Option String
deriving DecidableEq, Repr

/-- `Storage.create_database` (lines 187-203): assign
`self.engine = create_engine(DATABASE_URL)`; connect (a raised error
propagates); read the current revision; on `None` call `_create_new_db`,
on a revision different from head call `_run_migrations` (whose
`command.upgrade` error propagates uncaught), otherwise do nothing; then
install `self._get_session = scoped_session(sessionmaker(bind=self.engine,
future=True))`. -/
def create_database (env : DbEnv) : Except String CreateDbResult :=
  let engine : Option Nat := some env.engine
  match env.connect_error with
  | some e => .error e
  | none =>
    let current_rev := env.current_rev
    let step : Except String (List DbAction × Option String) :=
      match current_rev with
      | none => create_new_db engine env
      | some rev =>
        if rev ≠ env.head_rev then
          match env.upgrade_error with
          | some e => .error e
          | none => .ok ([DbAction.upgrade], none)
        else
          .ok ([], none)
    match step with
    | .error e => .error e
    | .ok (actions, logged) =>
      .ok { state := { engine := engine, session_factory := some env.engine },
            actions := actions ++ [DbAction.install_session_factory],
            logged_error := logged }

/-- A SQLAlchemy session, tracked by the engine it is bound to. -/
structure DbSession where
  bound_engine : Nat
deriving DecidableEq, Repr

/-- `Storage.get_session` (lines 205-209): raise `RuntimeError` when
`self._get_session is None`, otherwise return `self._get_session()` — a
session produced by the scoped factory bound to `self.engine`. -/
def get_session (s : StorageState) : Except String DbSession :=
  match s.session_factory with
  | none => .error dbNotEstablishedMsg
  | some e => .ok { bound_engine := e }

/-! ## Camera registration (`Storage._camera_registered`) -/

/-- `TIER_CATEGORIES` (lines 101-117). -/
def TIER_CATEGORIES : List (String × List String) :=
  [("recordings", ["segments", "recordings"]),
   ("snapshots", ["face_recognition", "object_detection"])]

/-- `self._config[category][CONFIG_TIERS]` for the two categories that
occur in `TIER_CATEGORIES`; any other key would be a `KeyError` and is
unreachable from `_camera_registered`. -/
def configTiers (config : StorageConfig) (category : String) : List Tier :=
  if category = CONFIG_RECORDINGS then config.recordings_tiers
  else if category = CONFIG_SNAPSHOTS then config.snapshots_tiers
  else []

/-- One `TierHandler(vis, camera, index, category, subcategory, tier,
next_tier)` construction (lines 232-240), recorded by its arguments. -/
structure TierHandler where
  camera : String
  index : Nat
  category : String
  subcategory : String
  tier : Tier
  next_tier : Option Tier
deriving DecidableEq, Repr

/-- The two inner loops of `_camera_registered` over one category:
`for index, tier in enumerate(tiers)` with
`next_tier = None if index == len(tiers) - 1 else tiers[index + 1]`,
then `for subcategory in TIER_CATEGORIES[category]` constructing one
handler each.  In the recursion, `rest.head?` is exactly
`tiers[index + 1]` when it exists and `None` when `index` is last. -/
def buildTierHandlers (camera category : String) (subcategories : List String) :
    Nat → List Tier → List TierHandler
  | _, [] => []
  | index, tier :: rest =>
    (subcategories.map fun subcategory =>
      { camera := camera, index := index, category := category,
        subcategory := subcategory, tier := tier, next_tier := rest.head? })
      ++ buildTierHandlers camera category subcategories (index + 1) rest

/-- `Storage._camera_registered` (lines 219-240): for every category in
`TIER_CATEGORIES`, build the tier handlers for that category's configured
tier chain.  Note the source reads `self._config[category][CONFIG_TIERS]`
for every subcategory; the snapshot subcategory overrides
(`face_recognition` / `object_detection`) are never consulted. -/
def camera_registered (config : StorageConfig) (camera : String) :
    List TierHandler :=
  TIER_CATEGORIES.flatMap fun cs =>
    buildTierHandlers camera cs.fst cs.snd 0 (configTiers config cs.fst)

end Viseron

/-! ## Validation lemmas -/

namespace Viseron

theorem validateChain_ok_iff :
    ∀ (ts : List Tier) (prev : Option Tier) (seen : List String),
      validateChain ts prev seen = .ok () ↔
        ((∀ t ∈ ts, ¬ isReservedPath t.path) ∧
          (∀ t ∈ ts, t.path ∉ seen) ∧
          (ts.map Tier.path).Nodup ∧ chainFrom prev ts) := by
  intro ts
  induction ts with
  | nil =>
    intro prev seen
    cases prev <;> simp [validateChain, chainFrom, List.chain'_nil]
  | cons t rest ih =>
    intro prev seen
    rw [validateChain.eq_def]
    cases prev <;> dsimp only
    case none =>
      by_cases hres : t.path ∈ ["/tmp", TEMP_DIR]
      · rw [if_pos hres]
        simp only [List.forall_mem_cons]
        constructor
        · intro h; exact absurd h (by simp)
        · rintro ⟨⟨h1, -⟩, -⟩; exact absurd hres h1
      · rw [if_neg hres]
        by_cases hdup : t.path ∈ seen
        · rw [if_pos hdup]
          simp only [List.forall_mem_cons]
          constructor
          · intro h; exact absurd h (by simp)
          · rintro ⟨-, ⟨h2, -⟩, -⟩; exact absurd hdup h2
        · rw [if_neg hdup]
          have hseen : ∀ x ∈ rest, x.path ∉ seen ++ [t.path] ↔
              (x.path ∉ seen ∧ x.path ≠ t.path) := by
            intro x _; simp [List.mem_append]
          rw [ih (some t) (seen ++ [t.path])]
          simp only [List.forall_mem_cons, List.map_cons, List.nodup_cons,
            List.mem_map]
          constructor
          · rintro ⟨hr, hs, hn, hc⟩
            refine ⟨⟨hres, hr⟩, ⟨hdup, fun x hx => ((hseen x hx).mp (hs x hx)).1⟩,
              ⟨?_, hn⟩, hc⟩
            rintro ⟨x, hx, hxe⟩
            exact ((hseen x hx).mp (hs x hx)).2 hxe
          · rintro ⟨⟨h1, hr⟩, ⟨h2, hs⟩, ⟨hni, hn⟩, hc⟩
            refine ⟨hr, fun x hx => (hseen x hx).mpr ⟨hs x hx, fun hxe => ?_⟩, hn, hc⟩
            exact hni ⟨x, hx, hxe⟩
    case some p =>
      by_cases hres : t.path ∈ ["/tmp", TEMP_DIR]
      · rw [if_pos hres]
        simp only [List.forall_mem_cons]
        constructor
        · intro h; exact absurd h (by simp)
        · rintro ⟨⟨h1, -⟩, -⟩; exact absurd hres h1
      · rw [if_neg hres]
        by_cases hdup : t.path ∈ seen
        · rw [if_pos hdup]
          simp only [List.forall_mem_cons]
          constructor
          · intro h; exact absurd h (by simp)
          · rintro ⟨-, ⟨h2, -⟩, -⟩; exact absurd hdup h2
        · rw [if_neg hdup]
          have hseen : ∀ x ∈ rest, x.path ∉ seen ++ [t.path] ↔
              (x.path ∉ seen ∧ x.path ≠ t.path) := by
            intro x _; simp [List.mem_append]
          by_cases hage : calculate_age t.max_age > 0 ∧
              calculate_age t.max_age ≤ calculate_age p.max_age
          · rw [if_pos hage]
            simp only [List.forall_mem_cons]
            constructor
            · intro h; exact absurd h (by simp)
            · rintro ⟨-, -, -, hc⟩
              rw [chainFrom, List.chain_cons] at hc
              rcases hc.1 with h0 | hlt
              · omega
              · omega
          · rw [if_neg hage]
            rw [ih (some t) (seen ++ [t.path])]
            simp only [List.forall_mem_cons, List.map_cons, List.nodup_cons,
              List.mem_map, chainFrom, List.chain_cons]
            constructor
            · rintro ⟨hr, hs, hn, hc⟩
              refine ⟨⟨hres, hr⟩, ⟨hdup, fun x hx => ((hseen x hx).mp (hs x hx)).1⟩,
                ⟨?_, hn⟩, ?_, hc⟩
              · rintro ⟨x, hx, hxe⟩
                exact ((hseen x hx).mp (hs x hx)).2 hxe
              · rw [ageOk]; omega
            · rintro ⟨⟨h1, hr⟩, ⟨h2, hs⟩, ⟨hni, hn⟩, hok, hc⟩
              refine ⟨hr, fun x hx => (hseen x hx).mpr ⟨hs x hx, fun hxe => ?_⟩, hn, hc⟩
              exact hni ⟨x, hx, hxe⟩

end Viseron

namespace Viseron

theorem chainFrom_tail {prev : Option Tier} {t : Tier} {rest : List Tier}
    (h : chainFrom prev (t :: rest)) : chainFrom (some t) rest := by
  cases prev with
  | none => exact h
  | some p => exact (List.chain_cons.mp h).2

theorem chainFrom_age_pass {p t : Tier} {rest : List Tier}
    (h : chainFrom (some p) (t :: rest)) :
    ¬ (calculate_age t.max_age > 0 ∧
        calculate_age t.max_age ≤ calculate_age p.max_age) := by
  have := (List.chain_cons.mp h).1
  rw [ageOk] at this
  omega

theorem validateChain_firstDup :
    ∀ (ts : List Tier) (prev : Option Tier) (seen : List String),
      (∀ t ∈ ts, ¬ isReservedPath t.path) → chainFrom prev ts →
      validateChain ts prev seen =
        (match firstDup (ts.map Tier.path) seen with
          | none => .ok ()
          | some p => .error (.duplicatePath p)) := by
  intro ts
  induction ts with
  | nil => intro prev seen _ _; simp [validateChain, firstDup]
  | cons t rest ih =>
    intro prev seen hres hchain
    have hres1 : ¬ isReservedPath t.path := hres t (List.mem_cons_self t rest)
    rw [validateChain.eq_def]
    dsimp only
    rw [if_neg (show ¬ t.path ∈ ["/tmp", TEMP_DIR] from hres1)]
    by_cases hdup : t.path ∈ seen
    · rw [if_pos hdup]
      simp [firstDup, hdup]
    · rw [if_neg hdup]
      have htail : chainFrom (some t) rest := chainFrom_tail hchain
      have hrec := ih (some t) (seen ++ [t.path])
        (fun x hx => hres x (List.mem_cons_of_mem t hx)) htail
      have hfd : firstDup ((t :: rest).map Tier.path) seen =
          firstDup (rest.map Tier.path) (seen ++ [t.path]) := by
        simp [firstDup, hdup]
      rw [hfd]
      cases prev with
      | none => exact hrec
      | some p =>
        dsimp only
        rw [if_neg (chainFrom_age_pass hchain)]
        exact hrec

theorem validateChain_firstReserved :
    ∀ (ts : List Tier) (prev : Option Tier) (seen : List String),
      (∀ t ∈ ts, t.path ∉ seen) → (ts.map Tier.path).Nodup →
      chainFrom prev ts →
      validateChain ts prev seen =
        (match firstReserved ts with
          | some t => .error (.reservedPath t.path)
          | none => .ok ()) := by
  intro ts
  induction ts with
  | nil => intro prev seen _ _ _; simp [validateChain, firstReserved]
  | cons t rest ih =>
    intro prev seen hseen hnd hchain
    rw [validateChain.eq_def]
    dsimp only
    by_cases hres : isReservedPath t.path
    · rw [if_pos (show t.path ∈ ["/tmp", TEMP_DIR] from hres)]
      rw [firstReserved, List.find?_cons_of_pos _ (by simpa using hres)]
    · rw [if_neg (show ¬ t.path ∈ ["/tmp", TEMP_DIR] from hres)]
      rw [if_neg (hseen t (List.mem_cons_self t rest))]
      have hseen2 : ∀ x ∈ rest, x.path ∉ seen ++ [t.path] := by
        intro x hx
        simp only [List.mem_append, List.mem_singleton]
        push_neg
        refine ⟨hseen x (List.mem_cons_of_mem t hx), ?_⟩
        intro hxe
        rw [List.map_cons, List.nodup_cons] at hnd
        exact hnd.1 (hxe ▸ List.mem_map_of_mem Tier.path hx)
      have hnd2 : (rest.map Tier.path).Nodup := by
        rw [List.map_cons, List.nodup_cons] at hnd; exact hnd.2
      have htail : chainFrom (some t) rest := chainFrom_tail hchain
      have hrec := ih (some t) (seen ++ [t.path]) hseen2 hnd2 htail
      have hfr : firstReserved (t :: rest) = firstReserved rest := by
        rw [firstReserved, firstReserved, List.find?_cons_of_neg _ (by simpa using hres)]
      rw [hfr]
      cases prev with
      | none => exact hrec
      | some p =>
        dsimp only
        rw [if_neg (chainFrom_age_pass hchain)]
        exact hrec

theorem validateChain_nonMonotonic :
    ∀ (ts : List Tier) (prev : Option Tier) (seen : List String),
      (∀ t ∈ ts, ¬ isReservedPath t.path) → (∀ t ∈ ts, t.path ∉ seen) →
      (ts.map Tier.path).Nodup → ¬ chainFrom prev ts →
      ∃ p, validateChain ts prev seen = .error (.nonMonotonicAge p) := by
  intro ts
  induction ts with
  | nil =>
    intro prev seen _ _ _ hchain
    exact absurd (by cases prev <;> simp [chainFrom, List.chain'_nil]) hchain
  | cons t rest ih =>
    intro prev seen hres hseen hnd hchain
    rw [validateChain.eq_def]
    dsimp only
    rw [if_neg (show ¬ t.path ∈ ["/tmp", TEMP_DIR] from hres t (List.mem_cons_self t rest))]
    rw [if_neg (hseen t (List.mem_cons_self t rest))]
    have hseen2 : ∀ x ∈ rest, x.path ∉ seen ++ [t.path] := by
      intro x hx
      simp only [List.mem_append, List.mem_singleton]
      push_neg
      refine ⟨hseen x (List.mem_cons_of_mem t hx), ?_⟩
      intro hxe
      rw [List.map_cons, List.nodup_cons] at hnd
      exact hnd.1 (hxe ▸ List.mem_map_of_mem Tier.path hx)
    have hnd2 : (rest.map Tier.path).Nodup := by
      rw [List.map_cons, List.nodup_cons] at hnd; exact hnd.2
    have hres2 : ∀ x ∈ rest, ¬ isReservedPath x.path :=
      fun x hx => hres x (List.mem_cons_of_mem t hx)
    cases prev with
    | none =>
      have hchain2 : ¬ chainFrom (some t) rest := hchain
      exact ih (some t) (seen ++ [t.path]) hres2 hseen2 hnd2 hchain2
    | some p =>
      dsimp only
      by_cases hage : calculate_age t.max_age > 0 ∧
          calculate_age t.max_age ≤ calculate_age p.max_age
      · rw [if_pos hage]
        exact ⟨t.path, rfl⟩
      · rw [if_neg hage]
        have hchain2 : ¬ chainFrom (some t) rest := by
          intro hc
          apply hchain
          rw [chainFrom, List.chain_cons]
          exact ⟨by rw [ageOk]; omega, hc⟩
        exact ih (some t) (seen ++ [t.path]) hres2 hseen2 hnd2 hchain2

end Viseron

namespace Viseron

/-! ## Concrete configurations used in counterexamples and witnesses -/

/-- Valid recordings chain, snapshots chain with a reserved path. -/
def cfgSnapshotsReserved : StorageConfig :=
  { recordings_tiers := [⟨"/a", ageDays 3⟩],
    snapshots_tiers := [⟨"/tmp", ageDays 7⟩] }

/-- The same reserved-path chain placed as the recordings chain. -/
def cfgRecordingsReserved : StorageConfig :=
  { recordings_tiers := [⟨"/tmp", ageDays 7⟩],
    snapshots_tiers := [⟨"/a", ageDays 3⟩] }

/-- Recordings chain whose first tier is reserved and whose second tier
violates the monotonic-age rule. -/
def cfgReservedThenShrinking : StorageConfig :=
  { recordings_tiers := [⟨"/tmp", ageDays 7⟩, ⟨"/b", ageDays 3⟩],
    snapshots_tiers := [] }

/-- The spec's validating example: 3 days then unlimited. -/
def cfgAge3Then0 : StorageConfig :=
  { recordings_tiers := [⟨"/a", ageDays 3⟩, ⟨"/b", ageZero⟩],
    snapshots_tiers := [] }

/-- The spec's failing example: 7 days then 3 days. -/
def cfgAge7Then3 : StorageConfig :=
  { recordings_tiers := [⟨"/a", ageDays 7⟩, ⟨"/b", ageDays 3⟩],
    snapshots_tiers := [] }

/-- An unlimited (zero max_age) tier followed by a bounded tier. -/
def cfgZeroThen3 : StorageConfig :=
  { recordings_tiers := [⟨"/a", ageZero⟩, ⟨"/b", ageDays 3⟩],
    snapshots_tiers := [] }

/-- A chain with a repeated path occurring after a monotonic-age
violation. -/
def cfgDupAfterAgeViolation : StorageConfig :=
  { recordings_tiers :=
      [⟨"/a", ageDays 7⟩, ⟨"/b", ageDays 3⟩, ⟨"/a", ageDays 1⟩],
    snapshots_tiers := [] }

/-- The spec's duplicate-path example. -/
def cfgDupPath : StorageConfig :=
  { recordings_tiers := [⟨"/a", ageDays 3⟩, ⟨"/a", ageDays 7⟩],
    snapshots_tiers := [] }

/-- A chain with a reserved path occurring after a monotonic-age
violation. -/
def cfgReservedAfterAgeViolation : StorageConfig :=
  { recordings_tiers :=
      [⟨"/a", ageDays 7⟩, ⟨"/b", ageDays 3⟩, ⟨"/tmp", ageDays 9⟩],
    snapshots_tiers := [] }

/-- The spec's reserved-path example. -/
def cfgTmpOnly : StorageConfig :=
  { recordings_tiers := [⟨"/tmp", ageDays 7⟩],
    snapshots_tiers := [] }

/-! ## Helper characterizations of `validate_tiers` -/

theorem validate_tiers_eq (config : StorageConfig) :
    validate_tiers config =
      (validateChain config.recordings_tiers none []).map fun _ => config := by
  unfold validate_tiers
  cases validateChain config.recordings_tiers none [] <;> rfl

theorem validate_tiers_ok_iff (config : StorageConfig) :
    validate_tiers config = .ok config ↔
      ChainInvariants config.recordings_tiers := by
  have key : validate_tiers config = .ok config ↔
      validateChain config.recordings_tiers none [] = .ok () := by
    rw [validate_tiers_eq]
    cases h : validateChain config.recordings_tiers none [] with
    | ok u => cases u; simp [Except.map]
    | error e => simp [Except.map]
  rw [key, validateChain_ok_iff, ChainInvariants]
  simp

theorem validate_tiers_error_of_firstDup (config : StorageConfig) (p : String)
    (hres : ∀ t ∈ config.recordings_tiers, ¬ isReservedPath t.path)
    (hchain : chainFrom none config.recordings_tiers)
    (hfd : firstDup (config.recordings_tiers.map Tier.path) [] = some p) :
    validate_tiers config = .error (.duplicatePath p) := by
  have h2 := validateChain_firstDup config.recordings_tiers none [] hres hchain
  rw [hfd] at h2
  rw [validate_tiers_eq, h2]
  rfl

theorem validate_tiers_error_of_firstReserved (config : StorageConfig) (t0 : Tier)
    (hnd : (config.recordings_tiers.map Tier.path).Nodup)
    (hchain : chainFrom none config.recordings_tiers)
    (hfr : firstReserved config.recordings_tiers = some t0) :
    validate_tiers config = .error (.reservedPath t0.path) := by
  have h2 := validateChain_firstReserved config.recordings_tiers none []
    (by simp) hnd hchain
  rw [hfr] at h2
  rw [validate_tiers_eq, h2]
  rfl

theorem validate_tiers_nonMonotonic (config : StorageConfig)
    (hres : ∀ t ∈ config.recordings_tiers, ¬ isReservedPath t.path)
    (hnd : (config.recordings_tiers.map Tier.path).Nodup)
    (hchain : ¬ chainFrom none config.recordings_tiers) :
    isNonMonotonicAgeError (validate_tiers config) = true := by
  obtain ⟨p, hp⟩ := validateChain_nonMonotonic config.recordings_tiers none []
    hres (by simp) hnd hchain
  rw [validate_tiers_eq, hp]
  rfl

end Viseron

namespace Viseron

theorem validateChain_dup_at :
    ∀ (pre : List Tier) (d : Tier) (suf : List Tier) (prev : Option Tier)
      (seen : List String),
      (∀ t ∈ pre, ¬ isReservedPath t.path) →
      (∀ t ∈ pre, t.path ∉ seen) →
      (pre.map Tier.path).Nodup →
      chainFrom prev pre →
      ¬ isReservedPath d.path →
      d.path ∈ seen ++ pre.map Tier.path →
      validateChain (pre ++ d :: suf) prev seen =
        .error (.duplicatePath d.path) := by
  intro pre
  induction pre with
  | nil =>
    intro d suf prev seen _ _ _ _ hdres hdmem
    rw [List.nil_append] at *
    rw [List.map_nil, List.append_nil] at hdmem
    rw [validateChain.eq_def]
    dsimp only
    rw [if_neg (show ¬ d.path ∈ ["/tmp", TEMP_DIR] from hdres),
      if_pos hdmem]
  | cons t pre2 ih =>
    intro d suf prev seen hres hseen hnd hchain hdres hdmem
    rw [List.cons_append, validateChain.eq_def]
    dsimp only
    rw [if_neg (show ¬ t.path ∈ ["/tmp", TEMP_DIR] from
      hres t (List.mem_cons_self t pre2))]
    rw [if_neg (hseen t (List.mem_cons_self t pre2))]
    have hseen2 : ∀ x ∈ pre2, x.path ∉ seen ++ [t.path] := by
      intro x hx
      simp only [List.mem_append, List.mem_singleton]
      push_neg
      refine ⟨hseen x (List.mem_cons_of_mem t hx), ?_⟩
      intro hxe
      rw [List.map_cons, List.nodup_cons] at hnd
      exact hnd.1 (hxe ▸ List.mem_map_of_mem Tier.path hx)
    have hnd2 : (pre2.map Tier.path).Nodup := by
      rw [List.map_cons, List.nodup_cons] at hnd; exact hnd.2
    have hres2 : ∀ x ∈ pre2, ¬ isReservedPath x.path :=
      fun x hx => hres x (List.mem_cons_of_mem t hx)
    have hdmem2 : d.path ∈ (seen ++ [t.path]) ++ pre2.map Tier.path := by
      rw [List.map_cons] at hdmem
      simp only [List.mem_append, List.mem_cons, List.mem_singleton] at *
      tauto
    cases prev with
    | none =>
      exact ih d suf (some t) (seen ++ [t.path]) hres2 hseen2 hnd2
        (chainFrom_tail hchain) hdres hdmem2
    | some p =>
      dsimp only
      rw [if_neg (chainFrom_age_pass hchain)]
      exact ih d suf (some t) (seen ++ [t.path]) hres2 hseen2 hnd2
        (chainFrom_tail hchain) hdres hdmem2

theorem validateChain_reserved_at :
    ∀ (pre : List Tier) (d : Tier) (suf : List Tier) (prev : Option Tier)
      (seen : List String),
      (∀ t ∈ pre, ¬ isReservedPath t.path) →
      (∀ t ∈ pre, t.path ∉ seen) →
      (pre.map Tier.path).Nodup →
      chainFrom prev pre →
      isReservedPath d.path →
      validateChain (pre ++ d :: suf) prev seen =
        .error (.reservedPath d.path) := by
  intro pre
  induction pre with
  | nil =>
    intro d suf prev seen _ _ _ _ hdres
    rw [List.nil_append, validateChain.eq_def]
    dsimp only
    rw [if_pos (show d.path ∈ ["/tmp", TEMP_DIR] from hdres)]
  | cons t pre2 ih =>
    intro d suf prev seen hres hseen hnd hchain hdres
    rw [List.cons_append, validateChain.eq_def]
    dsimp only
    rw [if_neg (show ¬ t.path ∈ ["/tmp", TEMP_DIR] from
      hres t (List.mem_cons_self t pre2))]
    rw [if_neg (hseen t (List.mem_cons_self t pre2))]
    have hseen2 : ∀ x ∈ pre2, x.path ∉ seen ++ [t.path] := by
      intro x hx
      simp only [List.mem_append, List.mem_singleton]
      push_neg
      refine ⟨hseen x (List.mem_cons_of_mem t hx), ?_⟩
      intro hxe
      rw [List.map_cons, List.nodup_cons] at hnd
      exact hnd.1 (hxe ▸ List.mem_map_of_mem Tier.path hx)
    have hnd2 : (pre2.map Tier.path).Nodup := by
      rw [List.map_cons, List.nodup_cons] at hnd; exact hnd.2
    have hres2 : ∀ x ∈ pre2, ¬ isReservedPath x.path :=
      fun x hx => hres x (List.mem_cons_of_mem t hx)
    cases prev with
    | none =>
      exact ih d suf (some t) (seen ++ [t.path]) hres2 hseen2 hnd2
        (chainFrom_tail hchain) hdres
    | some p =>
      dsimp only
      rw [if_neg (chainFrom_age_pass hchain)]
      exact ih d suf (some t) (seen ++ [t.path]) hres2 hseen2 hnd2
        (chainFrom_tail hchain) hdres

/-! ## Claim C1 -/

/-- C1 counterexample: the claim says a configuration whose snapshots
chain violates an invariant fails `validate_tiers` just as a violating
recordings chain does.  In fact a reserved-path snapshots chain
validates, while the same chain as the recordings chain fails. -/
theorem c1_counterexample :
    validate_tiers cfgSnapshotsReserved = .ok cfgSnapshotsReserved ∧
    ¬ ChainInvariants cfgSnapshotsReserved.snapshots_tiers ∧
    validate_tiers cfgRecordingsReserved = .error (.reservedPath ("/tmp")) :=
  ⟨rfl, by decide, rfl⟩

/-- C1 amended: tier-chain validation checks the TierChain invariants for
the recordings chain only; `validate_tiers` succeeds exactly when the
recordings chain satisfies all three invariants, and its outcome is
unchanged by replacing the snapshots chain. -/
theorem c1_amended (config : StorageConfig) (snaps : List Tier) :
    (validate_tiers config = .ok config ↔
      ChainInvariants config.recordings_tiers) ∧
    (validate_tiers { config with snapshots_tiers := snaps } =
        .ok { config with snapshots_tiers := snaps } ↔
      validate_tiers config = .ok config) := by
  refine ⟨validate_tiers_ok_iff config, ?_⟩
  rw [validate_tiers_ok_iff, validate_tiers_ok_iff]

/-! ## Claim C2 -/

/-- C2 counterexample: the recordings chain of
`cfgReservedThenShrinking` violates the adjacent-pair monotonic-age
condition (its second tier has a non-zero `max_age` not greater than the
first tier's), yet validation fails with `ReservedPathError`, not with
`NonMonotonicAgeError`. -/
theorem c2_counterexample :
    ¬ chainFrom none cfgReservedThenShrinking.recordings_tiers ∧
    validate_tiers cfgReservedThenShrinking = .error (.reservedPath ("/tmp")) ∧
    isNonMonotonicAgeError (validate_tiers cfgReservedThenShrinking) = false :=
  ⟨by decide, rfl, rfl⟩

/-- C2 amended: validation succeeds only if every adjacent pair with a
non-zero successor `max_age` is strictly increasing (zero-sentinel
successors exempt); when this fails and the recordings chain has no
reserved or repeated path, validation fails with `NonMonotonicAgeError`;
the chain 3d-then-unlimited validates and the chain 7d-then-3d fails with
`NonMonotonicAgeError`. -/
theorem c2_amended (config : StorageConfig) :
    (validate_tiers config = .ok config →
      chainFrom none config.recordings_tiers) ∧
    ((∀ t ∈ config.recordings_tiers, ¬ isReservedPath t.path) →
      (config.recordings_tiers.map Tier.path).Nodup →
      ¬ chainFrom none config.recordings_tiers →
      isNonMonotonicAgeError (validate_tiers config) = true) ∧
    validate_tiers cfgAge3Then0 = .ok cfgAge3Then0 ∧
    validate_tiers cfgAge7Then3 = .error (.nonMonotonicAge ("/b")) := by
  refine ⟨?_, ?_, rfl, rfl⟩
  · intro hok
    exact ((validate_tiers_ok_iff config).mp hok).2.2
  · intro hres hnd hchain
    exact validate_tiers_nonMonotonic config hres hnd hchain

/-- C2 amended, witness: the 7d-then-3d chain has no reserved or repeated
path, violates the monotonic-age condition, and indeed produces a
`NonMonotonicAgeError`. -/
theorem c2_amended_witness :
    isNonMonotonicAgeError (validate_tiers cfgAge7Then3) = true :=
  (c2_amended cfgAge7Then3).2.1 (by decide) (by decide) (by decide)

/-! ## Claim C3 -/

/-- C3 counterexample: a tier with the zero (retain-forever) `max_age`
sentinel followed by a further tier validates successfully, so
validation does not force unlimited tiers to be last. -/
theorem c3_counterexample :
    calculate_age ageZero = 0 ∧
    validate_tiers cfgZeroThen3 = .ok cfgZeroThen3 :=
  ⟨rfl, rfl⟩

/-- C3 amended: a zero/unset `max_age` successor is merely exempt from
the adjacent-pair comparison; an unlimited tier followed by any further
tier (with distinct, non-reserved paths) still validates, because every
successor of a zero-age tier passes the comparison. -/
theorem c3_amended (a b : Tier) (config : StorageConfig)
    (hcfg : config.recordings_tiers = [a, b])
    (hra : ¬ isReservedPath a.path) (hrb : ¬ isReservedPath b.path)
    (hne : a.path ≠ b.path) (h0 : calculate_age a.max_age = 0) :
    validate_tiers config = .ok config := by
  rw [validate_tiers_ok_iff, ChainInvariants, hcfg]
  refine ⟨?_, ?_, ?_⟩
  · simp [List.forall_mem_cons]
    exact ⟨hra, hrb⟩
  · simp [hne]
  · show List.Chain' ageOk [a, b]
    rw [List.chain'_cons]
    refine ⟨?_, List.chain'_singleton b⟩
    rw [ageOk]
    omega

/-- C3 amended, witness. -/
theorem c3_amended_witness :
    validate_tiers cfgZeroThen3 = .ok cfgZeroThen3 ∧
    cfgZeroThen3.recordings_tiers.head?.map (fun t => calculate_age t.max_age)
      = some 0 :=
  ⟨c3_amended ⟨"/a", ageZero⟩ ⟨"/b", ageDays 3⟩ cfgZeroThen3 rfl
      (by decide) (by decide) (by decide) rfl,
    rfl⟩

/-! ## Claim C4 -/

/-- C4 counterexample: a chain with a repeated path whose earlier tiers
already violate the monotonic-age rule fails with
`NonMonotonicAgeError`, not `DuplicatePathError`. -/
theorem c4_counterexample :
    ¬ (cfgDupAfterAgeViolation.recordings_tiers.map Tier.path).Nodup ∧
    validate_tiers cfgDupAfterAgeViolation = .error (.nonMonotonicAge ("/b")) :=
  ⟨by decide, rfl⟩

/-- C4 amended: a recordings chain with a repeated path never validates;
the failure is `DuplicatePathError` at the first repeated path in chain
order (the tier `d` whose path repeats one of the pairwise-distinct
earlier paths `pre`) provided no violation occurs earlier in the chain —
no reserved path among `pre` or `d` itself and no monotonic-age
violation within `pre`; tiers after `d` are unconstrained.  In
particular the spec's duplicate example fails with `DuplicatePathError`
for `/a`. -/
theorem c4_amended (config : StorageConfig) :
    (¬ (config.recordings_tiers.map Tier.path).Nodup →
      validate_tiers config ≠ .ok config) ∧
    (∀ pre d suf, config.recordings_tiers = pre ++ d :: suf →
      d.path ∈ pre.map Tier.path →
      (pre.map Tier.path).Nodup →
      (∀ t ∈ pre, ¬ isReservedPath t.path) →
      ¬ isReservedPath d.path →
      chainFrom none pre →
      validate_tiers config = .error (.duplicatePath d.path)) ∧
    validate_tiers cfgDupPath = .error (.duplicatePath ("/a")) := by
  refine ⟨?_, ?_, rfl⟩
  · intro hnd hok
    exact hnd ((validate_tiers_ok_iff config).mp hok).2.1
  · intro pre d suf hcfg hdmem hnd hres hdres hchain
    have h := validateChain_dup_at pre d suf none [] hres (by simp) hnd
      hchain hdres (by simpa using hdmem)
    rw [validate_tiers_eq, hcfg, h]
    rfl

/-- C4 amended, witness: the duplicate tier of `cfgDupPath` repeats the
single earlier path, no earlier tier is reserved or age-violating, and
validation indeed reports `DuplicatePathError` for `/a`. -/
theorem c4_amended_witness :
    validate_tiers cfgDupPath = .error (.duplicatePath ("/a")) :=
  (c4_amended cfgDupPath).2.1 [⟨"/a", ageDays 3⟩] ⟨"/a", ageDays 7⟩ [] rfl
    (by decide) (by decide) (by decide) (by decide) (by decide)

/-! ## Claim C5 -/

/-- C5 counterexample: a chain containing a reserved path that appears
after a monotonic-age violation fails with `NonMonotonicAgeError`, not
`ReservedPathError`. -/
theorem c5_counterexample :
    (∃ t ∈ cfgReservedAfterAgeViolation.recordings_tiers,
      isReservedPath t.path) ∧
    validate_tiers cfgReservedAfterAgeViolation =
      .error (.nonMonotonicAge ("/b")) :=
  ⟨⟨⟨"/tmp", ageDays 9⟩, by decide, by decide⟩, rfl⟩

/-- C5 amended: a recordings chain containing a reserved path never
validates; the failure is `ReservedPathError` for the first reserved
tier `d` provided no violation occurs earlier in the chain — the tiers
`pre` before `d` are non-reserved, pairwise distinct and
monotonic-age-compatible; tiers after `d` are unconstrained.  In
particular the single-tier `/tmp` chain fails with `ReservedPathError`. -/
theorem c5_amended (config : StorageConfig) :
    ((∃ t ∈ config.recordings_tiers, isReservedPath t.path) →
      validate_tiers config ≠ .ok config) ∧
    (∀ pre d suf, config.recordings_tiers = pre ++ d :: suf →
      isReservedPath d.path →
      (∀ t ∈ pre, ¬ isReservedPath t.path) →
      (pre.map Tier.path).Nodup →
      chainFrom none pre →
      validate_tiers config = .error (.reservedPath d.path)) ∧
    validate_tiers cfgTmpOnly = .error (.reservedPath ("/tmp")) := by
  refine ⟨?_, ?_, rfl⟩
  · rintro ⟨t, ht, hres⟩ hok
    exact ((validate_tiers_ok_iff config).mp hok).1 t ht hres
  · intro pre d suf hcfg hdres hres hnd hchain
    have h := validateChain_reserved_at pre d suf none [] hres (by simp) hnd
      hchain hdres
    rw [validate_tiers_eq, hcfg, h]
    rfl

/-- C5 amended, witness: the single `/tmp` tier is reserved with an
empty (hence violation-free) prefix, and validation indeed reports
`ReservedPathError`. -/
theorem c5_amended_witness :
    validate_tiers cfgTmpOnly = .error (.reservedPath ("/tmp")) :=
  (c5_amended cfgTmpOnly).2.1 [] ⟨"/tmp", ageDays 7⟩ [] rfl
    (by decide) (by decide) (by decide) (by decide)

end Viseron

namespace Viseron

/-! ## Claims C6 and C7: schema bootstrap / migration -/

/-- A fresh install (no recorded revision) whose `create_all` call
raises. -/
def envFreshCreateFails : DbEnv :=
  { engine := 1, head_rev := "head1",
    create_all_error := some ("disk full") }

/-- C6 counterexample: with no recorded revision and a failing
`Base.metadata.create_all`, `create_database` does not abort: it catches
and logs the error, installs the session factory, and returns normally,
so startup continues into mover setup with a partially-created schema. -/
theorem c6_counterexample :
    envFreshCreateFails.create_all_error = some ("disk full") ∧
    create_database envFreshCreateFails =
      .ok { state := { engine := some 1, session_factory := some 1 },
            actions := [DbAction.install_session_factory],
            logged_error := some ("disk full") } :=
  ⟨rfl, rfl⟩

/-- C6 amended: connection errors and migration errors are fatal —
`create_database` propagates them to the caller; but fresh-create errors
(table creation or head stamping) are caught inside `_create_new_db` and
only logged: `create_database` still returns successfully with the
session factory installed. -/
theorem c6_amended (env : DbEnv) :
    (∀ e, env.connect_error = some e → create_database env = .error e) ∧
    (∀ e rev, env.connect_error = none → env.current_rev = some rev →
      rev ≠ env.head_rev → env.upgrade_error = some e →
      create_database env = .error e) ∧
    (env.connect_error = none → env.current_rev = none →
      ∃ r, create_database env = .ok r ∧
        r.state.session_factory = some env.engine ∧
        r.logged_error = env.create_all_error.or env.stamp_error) := by
  refine ⟨?_, ?_, ?_⟩
  · intro e hc
    rw [create_database, hc]
  · intro e rev hc hrev hne hup
    rw [create_database, hc, hrev]
    simp [if_pos hne, hup]
  · intro hc hrev
    rw [create_database, hc, hrev]
    rw [create_new_db]
    cases hca : env.create_all_error with
    | some e => exact ⟨_, rfl, rfl, by simp [hca, Option.or]⟩
    | none =>
      cases hst : env.stamp_error with
      | some e => exact ⟨_, rfl, rfl, by simp [hca, hst, Option.or]⟩
      | none => exact ⟨_, rfl, rfl, by simp [hca, hst, Option.or]⟩

/-- C6 amended, witness: a failing migration aborts startup. -/
theorem c6_amended_witness :
    create_database
        { engine := 2, head_rev := "head2", current_rev := some ("old"),
          upgrade_error := some ("migration step failed") } =
      .error ("migration step failed") :=
  (c6_amended
      { engine := 2, head_rev := "head2", current_rev := some ("old"),
        upgrade_error := some ("migration step failed") }).2.1
    ("migration step failed") ("old") rfl rfl (by decide) rfl

/-- C7: with all external calls succeeding, `create_database` takes
exactly one of three actions decided by the recorded revision: fresh
create (create_all then stamp, no migrations) when there is none,
migration (upgrade only) when it differs from head, and neither when it
equals head; in every case it then installs the session factory. -/
theorem c7_three_actions (env : DbEnv)
    (hc : env.connect_error = none)
    (hca : env.create_all_error = none) (hst : env.stamp_error = none)
    (hup : env.upgrade_error = none) :
    (env.current_rev = none →
      create_database env =
        .ok { state := { engine := some env.engine,
                         session_factory := some env.engine },
              actions := [DbAction.create_all, DbAction.stamp,
                          DbAction.install_session_factory],
              logged_error := none }) ∧
    (∀ rev, env.current_rev = some rev → rev ≠ env.head_rev →
      create_database env =
        .ok { state := { engine := some env.engine,
                         session_factory := some env.engine },
              actions := [DbAction.upgrade,
                          DbAction.install_session_factory],
              logged_error := none }) ∧
    (env.current_rev = some env.head_rev →
      create_database env =
        .ok { state := { engine := some env.engine,
                         session_factory := some env.engine },
              actions := [DbAction.install_session_factory],
              logged_error := none }) := by
  refine ⟨?_, ?_, ?_⟩
  · intro hrev
    rw [create_database, hc, hrev, create_new_db, hca, hst]
    rfl
  · intro rev hrev hne
    rw [create_database, hc, hrev]
    simp [if_pos hne, hup]
  · intro hrev
    rw [create_database, hc, hrev]
    simp

/-- C7 witness: a fresh store gets tables created and stamped, with no
migration replayed. -/
theorem c7_three_actions_witness :
    create_database { engine := 3, head_rev := "head3" } =
      .ok { state := { engine := some 3, session_factory := some 3 },
            actions := [DbAction.create_all, DbAction.stamp,
                        DbAction.install_session_factory],
            logged_error := none } :=
  (c7_three_actions { engine := 3, head_rev := "head3" }
      rfl rfl rfl rfl).1 rfl

end Viseron

namespace Viseron

/-! ## Claims C8 and C9: per-camera mover dispatch -/

/-- The movers one (category, subcategory) pair receives for a tier
chain: one per tier, indexed in order, each carrying the next tier (the
head of the remaining chain) as destination — `none` for the last tier. -/
def chainMovers (camera category subcategory : String) :
    Nat → List Tier → List TierHandler
  | _, [] => []
  | index, tier :: rest =>
    { camera := camera, index := index, category := category,
      subcategory := subcategory, tier := tier, next_tier := rest.head? }
      :: chainMovers camera category subcategory (index + 1) rest

theorem chainMovers_length (camera cat sub : String) :
    ∀ (i : Nat) (ts : List Tier),
      (chainMovers camera cat sub i ts).length = ts.length := by
  intro i ts
  induction ts generalizing i with
  | nil => rfl
  | cons t rest ih => simp [chainMovers, ih]

theorem chainMovers_mem (camera cat sub : String) :
    ∀ (ts : List Tier) (i j : Nat) (h : j < ts.length),
      ({ camera := camera, index := i + j, category := cat,
         subcategory := sub, tier := ts.get ⟨j, h⟩,
         next_tier := (ts.drop (j + 1)).head? } : TierHandler) ∈
        chainMovers camera cat sub i ts := by
  intro ts
  induction ts with
  | nil => intro i j h; exact absurd h (by simp)
  | cons t rest ih =>
    intro i j h
    cases j with
    | zero => simp [chainMovers]
    | succ j2 =>
      have h2 : j2 < rest.length := by simpa using h
      have hmem := ih (i + 1) j2 h2
      rw [chainMovers]
      apply List.mem_cons_of_mem
      have harith : i + (j2 + 1) = (i + 1) + j2 := by omega
      simpa [harith, List.drop_succ_cons] using hmem

theorem drop_head?_eq {α : Type} : ∀ (l : List α) (k : Nat),
    (l.drop k).head? = l[k]? := by
  intro l
  induction l with
  | nil => intro k; simp
  | cons a rest ih =>
    intro k
    cases k with
    | zero => simp
    | succ k2 => simp [ih k2]

theorem getElem?_dite {α : Type} (l : List α) (k : Nat) :
    l[k]? = if h : k < l.length then some (l.get ⟨k, h⟩) else none := by
  split
  · next h => simp [List.getElem?_eq_getElem h]
  · next h => simp [List.getElem?_eq_none (Nat.le_of_not_lt h)]

theorem filter_map_mk (camera cat sub : String) (i : Nat) (t : Tier)
    (nt : Option Tier) :
    ∀ (subs : List String),
      ((subs.map fun subcategory =>
        ({ camera := camera, index := i, category := cat,
           subcategory := subcategory, tier := t,
           next_tier := nt } : TierHandler)).filter
          fun m => m.category == cat && m.subcategory == sub)
        = (subs.filter fun s => s == sub).map fun subcategory =>
            ({ camera := camera, index := i, category := cat,
               subcategory := subcategory, tier := t,
               next_tier := nt } : TierHandler) := by
  intro subs
  induction subs with
  | nil => rfl
  | cons s rest ih =>
    simp only [List.map_cons, List.filter_cons]
    have hcat : (cat == cat) = true := by simp
    by_cases hs : (s == sub) = true
    · simp only [hcat, hs, Bool.true_and, if_true, ih, List.map_cons]
    · simp only [hcat, hs, Bool.true_and, Bool.and_true] at *
      simp [hs, ih]

theorem filter_buildTierHandlers_ne (camera cat2 cat sub : String)
    (subs : List String) (hne : (cat2 == cat) = false) :
    ∀ (i : Nat) (ts : List Tier),
      ((buildTierHandlers camera cat2 subs i ts).filter
        fun m => m.category == cat && m.subcategory == sub) = [] := by
  intro i ts
  induction ts generalizing i with
  | nil => rfl
  | cons t rest ih =>
    rw [buildTierHandlers, List.filter_append, ih]
    rw [List.append_nil]
    apply List.filter_eq_nil_iff.mpr
    intro m hm
    obtain ⟨s, _, rfl⟩ := List.mem_map.mp hm
    simp [hne]

theorem filter_buildTierHandlers_eq (camera cat sub : String)
    (subs : List String) (hsub : subs.filter (fun s => s == sub) = [sub]) :
    ∀ (i : Nat) (ts : List Tier),
      ((buildTierHandlers camera cat subs i ts).filter
        fun m => m.category == cat && m.subcategory == sub)
        = chainMovers camera cat sub i ts := by
  intro i ts
  induction ts generalizing i with
  | nil => rfl
  | cons t rest ih =>
    rw [buildTierHandlers, List.filter_append, ih, chainMovers]
    rw [filter_map_mk, hsub]
    rfl

end Viseron

namespace Viseron

/-- C8: for each (category, subcategory) pair of `TIER_CATEGORIES`, the
camera-registered dispatch constructs exactly one mover per tier of the
chain the source reads for that category, with source `tier[j]` and
destination `tier[j+1]` for every non-last index and destination `none`
(delete) for the last tier. -/
theorem c8_movers_per_pair (config : StorageConfig) (camera cat sub : String)
    (subs : List String) (hcat : (cat, subs) ∈ TIER_CATEGORIES)
    (hsub : sub ∈ subs) :
    ((camera_registered config camera).filter
        fun m => m.category == cat && m.subcategory == sub).length
      = (configTiers config cat).length ∧
    ∀ j (hj : j < (configTiers config cat).length),
      ({ camera := camera, index := j, category := cat, subcategory := sub,
         tier := (configTiers config cat).get ⟨j, hj⟩,
         next_tier :=
           if hj2 : j + 1 < (configTiers config cat).length then
             some ((configTiers config cat).get ⟨j + 1, hj2⟩)
           else none } : TierHandler) ∈
        (camera_registered config camera).filter
          fun m => m.category == cat && m.subcategory == sub := by
  have key : ((camera_registered config camera).filter
      fun m => m.category == cat && m.subcategory == sub)
      = chainMovers camera cat sub 0 (configTiers config cat) := by
    simp only [TIER_CATEGORIES, List.mem_cons, List.not_mem_nil, or_false,
      Prod.mk.injEq] at hcat
    rcases hcat with ⟨rfl, rfl⟩ | ⟨rfl, rfl⟩ <;>
      · rw [camera_registered]
        show (List.filter _ (_ ++ (_ ++ []))) = _
        rw [List.append_nil, List.filter_append]
        simp only [List.mem_cons, List.not_mem_nil, or_false] at hsub
        rcases hsub with rfl | rfl <;>
          · rw [filter_buildTierHandlers_eq _ _ _ _ (by decide),
              filter_buildTierHandlers_ne _ _ _ _ _ (by decide)]
            first
              | exact List.append_nil _
              | exact List.nil_append _
  constructor
  · rw [key, chainMovers_length]
  · intro j hj
    rw [key]
    have hm := chainMovers_mem camera cat sub (configTiers config cat) 0 j hj
    rw [drop_head?_eq, getElem?_dite] at hm
    simpa using hm

/-- C8 witness instance: a two-tier recordings chain yields two segment
movers. -/
def cfgTwoTier : StorageConfig :=
  { recordings_tiers := [⟨"/fast", ageDays 1⟩, ⟨"/slow", ageDays 7⟩],
    snapshots_tiers := [⟨"/snap", ageDays 7⟩] }

/-- C8 witness: for the concrete two-tier configuration, the segments
subcategory receives exactly two movers. -/
theorem c8_movers_per_pair_witness :
    ((camera_registered cfgTwoTier ("camera_one")).filter
        fun m => m.category == ("recordings") && m.subcategory == ("segments")).length
      = (configTiers cfgTwoTier ("recordings")).length :=
  (c8_movers_per_pair cfgTwoTier ("camera_one") ("recordings") ("segments")
    (["segments", "recordings"]) (by decide) (by decide)).1

/-- Snapshot configuration carrying a `face_recognition` override chain
that differs from the snapshots default chain. -/
def cfgFaceOverride : StorageConfig :=
  { recordings_tiers := [⟨"/r", ageDays 1⟩],
    snapshots_tiers := [⟨"/s", ageDays 1⟩],
    face_recognition_tiers := some [⟨"/o", ageDays 1⟩] }

/-- C9: evaluating `_camera_registered` at a configuration whose
`face_recognition` override is set shows the movers for that subcategory
are built from the snapshots default chain (`/s`), not from the
configured override chain (`/o`): the override documented in `const.py`
(`DESC_FACE_RECOGNITION`) is never consulted. -/
theorem c9_override_ignored :
    cfgFaceOverride.face_recognition_tiers = some [⟨"/o", ageDays 1⟩] ∧
    ((camera_registered cfgFaceOverride ("cam")).filter
        fun m => m.subcategory == ("face_recognition"))
      = [{ camera := ("cam"), index := 0, category := ("snapshots"),
           subcategory := ("face_recognition"), tier := ⟨"/s", ageDays 1⟩,
           next_tier := none }] :=
  ⟨rfl, rfl⟩

end Viseron

namespace Viseron

/-! ## Claim C10: `get_session` -/

theorem create_database_ok_state (env : DbEnv) (r : CreateDbResult)
    (hok : create_database env = .ok r) :
    r.state = { engine := some env.engine,
                session_factory := some env.engine } := by
  cases hconn : env.connect_error with
  | some e => rw [create_database, hconn] at hok; cases hok
  | none =>
    cases hrev : env.current_rev with
    | none =>
      rw [create_database, hconn, hrev, create_new_db] at hok
      cases hca : env.create_all_error with
      | some e => rw [hca] at hok; cases hok; rfl
      | none =>
        rw [hca] at hok
        cases hst : env.stamp_error with
        | some e => rw [hst] at hok; cases hok; rfl
        | none => rw [hst] at hok; cases hok; rfl
    | some rev =>
      rw [create_database, hconn, hrev] at hok
      dsimp only at hok
      by_cases hne : rev ≠ env.head_rev
      · rw [if_pos hne] at hok
        cases hup : env.upgrade_error with
        | some e => rw [hup] at hok; cases hok
        | none => rw [hup] at hok; cases hok; rfl
      · rw [if_neg hne] at hok; cases hok; rfl

/-- C10: calling `get_session` while the session factory is not yet
installed raises the `RuntimeError`; after a successful `create_database`
it returns a session from the factory bound to the engine held for the
process lifetime. -/
theorem c10_get_session (s : StorageState) (env : DbEnv) (r : CreateDbResult) :
    (s.session_factory = none →
      get_session s = .error dbNotEstablishedMsg) ∧
    (create_database env = .ok r →
      r.state.engine = some env.engine ∧
      get_session r.state = .ok { bound_engine := env.engine }) := by
  constructor
  · intro h
    rw [get_session.eq_def, h]
  · intro hok
    rw [create_database_ok_state env r hok]
    exact ⟨rfl, rfl⟩

/-- Environment for the C10 witness. -/
def envW10 : DbEnv := { engine := 4, head_rev := "h4" }

/-- Result of `create_database envW10`. -/
def resW10 : CreateDbResult :=
  { state := { engine := some 4, session_factory := some 4 },
    actions := [DbAction.create_all, DbAction.stamp,
                DbAction.install_session_factory],
    logged_error := none }

/-- C10 witness: before establishment `get_session` errors; after the
concrete `create_database` run it returns the bound session. -/
theorem c10_get_session_witness :
    get_session { engine := none, session_factory := none } =
      .error dbNotEstablishedMsg ∧
    get_session resW10.state = .ok { bound_engine := 4 } :=
  ⟨(c10_get_session { engine := none, session_factory := none } envW10 resW10).1
      rfl,
    ((c10_get_session { engine := none, session_factory := none } envW10
        resW10).2 rfl).2⟩

end Viseron
